import Mathlib

/-!
Verification of `papers_fetcher.py` (PubMed-Research-Extractor).

Python strings are modelled as `List Char`; Python `str.strip()` as
`pstrip` (drop ASCII/unicode whitespace from both ends), `str.lower()`
as a character-wise `Char.toLower` map, and the Python substring test
`needle in hay` as the executable `isSubstring`.

`Element.findtext(path, default)` results are modelled as `Option (List Char)`:
`none` when no element matches the path (the caller's default applies),
`some t` when an element was found with text `t` (an element with no
text yields `some []`, matching `findtext` returning the empty string).
-/

namespace PapersFetcher

/-- Python `str` modelled as a list of characters. -/
abbrev PyStr := List Char

/-- The ASCII space character, used by the f-string `f"{first} {last}"`. -/
def spaceChar : Char := Char.ofNat 32

/-- Python `str.strip()`: remove whitespace from both ends. -/
def pstrip (s : PyStr) : PyStr :=
  List.rdropWhile Char.isWhitespace (List.dropWhile Char.isWhitespace s)

/-- Python `str.lower()`, character-wise (ASCII model). -/
def pyLower (s : PyStr) : PyStr := s.map Char.toLower

/-- Python `hay.startswith(needle)` on char lists: `needle` begins `hay`. -/
def startsWith : PyStr → PyStr → Bool
  | [], _ => true
  | _ :: _, [] => false
  | a :: nrest, b :: hrest => a == b && startsWith nrest hrest

/-- Python `needle in hay`: `needle` occurs contiguously inside `hay`. -/
def isSubstring (needle : PyStr) : PyStr → Bool
  | [] => startsWith needle []
  | c :: rest => startsWith needle (c :: rest) || isSubstring needle rest

/-- The seven academic keywords of `is_company` (source line 108). -/
def academic_keywords : List PyStr :=
  ["University".toList, "Institute".toList, "College".toList, "School".toList,
   "Hospital".toList, "Academy".toList, "Center".toList]

/-- Source `is_company` (lines 101-109): an affiliation is a company iff no
academic keyword occurs, case-insensitively, inside it. -/
def is_company (affiliation : PyStr) : Bool :=
  !(academic_keywords.any fun keyword =>
      isSubstring (pyLower keyword) (pyLower affiliation))

/-- Spec-side predicate: `hay` contains `kw` case-insensitively, i.e. the
lowercased keyword occurs contiguously inside the lowercased string,
regardless of surrounding text. -/
def containsCI (hay kw : PyStr) : Prop :=
  ∃ pre post, pyLower hay = pre ++ pyLower kw ++ post

/- Correspondence between the executable substring test and the
existential characterization. -/

theorem startsWith_iff (needle hay : PyStr) :
    startsWith needle hay = true ↔ ∃ post, hay = needle ++ post := by
  induction needle generalizing hay with
  | nil => simp [startsWith]
  | cons a nrest ih =>
    cases hay with
    | nil => simp [startsWith]
    | cons b hrest =>
      simp only [startsWith, Bool.and_eq_true, beq_iff_eq, ih, List.cons_append,
        List.cons.injEq]
      constructor
      · rintro ⟨rfl, post, rfl⟩
        exact ⟨post, rfl, rfl⟩
      · rintro ⟨post, rfl, rfl⟩
        exact ⟨rfl, post, rfl⟩

theorem isSubstring_iff (needle hay : PyStr) :
    isSubstring needle hay = true ↔ ∃ pre post, hay = pre ++ needle ++ post := by
  induction hay with
  | nil =>
    simp only [isSubstring, startsWith_iff]
    constructor
    · rintro ⟨post, h⟩
      exact ⟨[], post, by simpa using h⟩
    · rintro ⟨pre, post, h⟩
      refine ⟨post, ?_⟩
      rcases List.append_eq_nil.mp (List.append_eq_nil.mp h.symm).1 with ⟨rfl, rfl⟩
      simpa using h
  | cons c rest ih =>
    simp only [isSubstring, Bool.or_eq_true, startsWith_iff, ih]
    constructor
    · rintro (⟨post, h⟩ | ⟨pre, post, rfl⟩)
      · exact ⟨[], post, by simpa using h⟩
      · exact ⟨c :: pre, post, rfl⟩
    · rintro ⟨pre, post, h⟩
      cases pre with
      | nil => exact Or.inl ⟨post, by simpa using h⟩
      | cons p ps =>
        simp only [List.cons_append, List.cons.injEq] at h
        exact Or.inr ⟨ps, post, by rw [h.2]⟩

/-! ## Document model -/

/-- One `Author` element of the fetched XML document.  Each field holds the
result of the corresponding `findtext` lookup: `none` when the element is
absent, `some t` for its text. -/
structure Author where
  foreName : Option PyStr
  lastName : Option PyStr
  affiliation : Option PyStr
  deriving DecidableEq

/-- The parsed XML document, restricted to the paths the program reads:
`.//ArticleTitle`, `.//PubDate/Year`, `.//Author` (in document order) and
`.//ElectronicAddress` (each entry is that element's text, which may be
absent). -/
structure Doc where
  articleTitle : Option PyStr
  pubDateYear : Option PyStr
  authors : List Author
  electronicAddresses : List (Option PyStr)
  deriving DecidableEq

/-- The display name built at source line 90-92:
`f"{first_name} {last_name}".strip()` with both parts already stripped. -/
def composeName (a : Author) : PyStr :=
  pstrip (pstrip (a.foreName.getD []) ++ spaceChar :: pstrip (a.lastName.getD []))

/-- The author's first affiliation text, stripped (source line 93). -/
def strippedAff (a : Author) : PyStr :=
  pstrip (a.affiliation.getD [])

/-- The loop body of `extract_authors_affiliations` (source lines 89-97),
as structural recursion over the author list in document order. -/
def extractList : List Author → List PyStr × List PyStr
  | [] => ([], [])
  | a :: rest =>
    let prev := extractList rest
    let name := composeName a
    let affiliation := strippedAff a
    if name ≠ [] ∧ affiliation ≠ [] ∧ is_company affiliation = true then
      (name :: prev.1, affiliation :: prev.2)
    else prev

/-- Source `extract_authors_affiliations` (lines 79-99). -/
def extract_authors_affiliations (root : Doc) : List PyStr × List PyStr :=
  extractList root.authors

/-- Source `extract_corresponding_email` (lines 111-120): the text of the
first `ElectronicAddress` element, `none` when there is no such element
(or the first one carries no text). -/
def extract_corresponding_email (root : Doc) : Option PyStr :=
  match root.electronicAddresses with
  | [] => none
  | e :: _ => e

/-! ## Spec-side name composition -/

/-- Modelled from the spec: the display name is the first-name and
last-name fields trimmed and space-joined with empty parts omitted. -/
def composeNameSpec (a : Author) : PyStr :=
  let f := pstrip (a.foreName.getD [])
  let l := pstrip (a.lastName.getD [])
  if f = [] then l else if l = [] then f else f ++ spaceChar :: l

/-! ## Properties of `pstrip` -/

theorem isWhitespace_spaceChar : Char.isWhitespace spaceChar = true := by decide

theorem dropWhile_pstrip (s : PyStr) :
    List.dropWhile Char.isWhitespace (pstrip s) = pstrip s := by
  rw [List.dropWhile_eq_self_iff]
  intro hl
  have hpre : pstrip s <+: List.dropWhile Char.isWhitespace s :=
    List.rdropWhile_prefix _ _
  have hlen : 0 < (List.dropWhile Char.isWhitespace s).length :=
    lt_of_lt_of_le hl hpre.length_le
  have hhead := List.head_dropWhile_not Char.isWhitespace
    (l := s) (List.ne_nil_of_length_pos hlen)
  have hget := hpre.getElem hl
  rw [List.head_eq_getElem_zero] at hhead
  simp only [List.get_eq_getElem]
  rw [hget]
  simp [hhead]

theorem rdropWhile_pstrip (s : PyStr) :
    List.rdropWhile Char.isWhitespace (pstrip s) = pstrip s :=
  List.rdropWhile_idempotent _ _

/-- Stripping `f ++ " " ++ l` where `f` and `l` are themselves stripped
omits the joining space next to an empty part. -/
theorem pstrip_append_space (f l : PyStr)
    (hf1 : List.dropWhile Char.isWhitespace f = f)
    (hf2 : List.rdropWhile Char.isWhitespace f = f)
    (hl1 : List.dropWhile Char.isWhitespace l = l)
    (hl2 : List.rdropWhile Char.isWhitespace l = l) :
    pstrip (f ++ spaceChar :: l) =
      if f = [] then l else if l = [] then f else f ++ spaceChar :: l := by
  cases f with
  | nil =>
    simp only [List.nil_append, if_pos rfl]
    show List.rdropWhile _ (List.dropWhile _ (spaceChar :: l)) = l
    rw [List.dropWhile_cons_of_pos isWhitespace_spaceChar, hl1, hl2]
  | cons c f' =>
    have hc : Char.isWhitespace c = false := by
      have := (List.dropWhile_eq_self_iff.mp hf1) (by simp)
      simpa using this
    show List.rdropWhile _ (List.dropWhile _ ((c :: f') ++ spaceChar :: l)) = _
    rw [List.cons_append, List.dropWhile_cons_of_neg (by simp [hc]),
      ← List.cons_append]
    cases l with
    | nil =>
      have : (c :: f') ++ spaceChar :: ([] : PyStr) = (c :: f') ++ [spaceChar] := rfl
      rw [this, List.rdropWhile_concat_pos _ _ _ isWhitespace_spaceChar, hf2]
      simp
    | cons d l' =>
      rw [List.rdropWhile_eq_self_iff.mpr]
      · simp
      · intro hne
        rw [List.getLast_append' _ _ (by simp)]
        have hd := List.rdropWhile_eq_self_iff.mp hl2 (by simp)
        simpa using hd

/-- The source name composition equals the spec's description. -/
theorem composeName_eq_spec (a : Author) : composeName a = composeNameSpec a := by
  unfold composeName composeNameSpec
  exact pstrip_append_space _ _ (dropWhile_pstrip _) (rdropWhile_pstrip _)
    (dropWhile_pstrip _) (rdropWhile_pstrip _)

/-! ## Record assembly (`fetch_paper_details` success path, lines 70-77) -/

/-- The literal "N/A". -/
def nNA : PyStr := "N/A".toList

/-- The separator of `", ".join(...)`. -/
def commaSpace : PyStr := ", ".toList

def kPubmedID : PyStr := "PubmedID".toList

def kTitle : PyStr := "Title".toList

def kPubDate : PyStr := "Publication Date".toList

def kAuthors : PyStr := "Non-academic Author(s)".toList

def kCompanies : PyStr := "Company Affiliation(s)".toList

def kEmail : PyStr := "Corresponding Author Email".toList

/-- A paper record: the Python dict of string keys to string values. -/
abbrev RecordT := List (PyStr × PyStr)

/-- Python `x or "N/A"` on an optional string: falsy (`None` or empty)
falls back to the default. -/
def pyOrStr (x : Option PyStr) (dflt : PyStr) : PyStr :=
  match x with
  | none => dflt
  | some s => if s = [] then dflt else s

/-- The dict literal returned by `fetch_paper_details` on success
(source lines 70-77). -/
def buildRecord (pubmed_id : PyStr) (d : Doc) : RecordT :=
  [(kPubmedID, pubmed_id),
   (kTitle, d.articleTitle.getD nNA),
   (kPubDate, d.pubDateYear.getD nNA),
   (kAuthors,
     if (extract_authors_affiliations d).1 ≠ [] then
       List.intercalate commaSpace (extract_authors_affiliations d).1
     else nNA),
   (kCompanies,
     if (extract_authors_affiliations d).2 ≠ [] then
       List.intercalate commaSpace (extract_authors_affiliations d).2
     else nNA),
   (kEmail, pyOrStr (extract_corresponding_email d) nNA)]

/-- Dict access by key (first binding wins, as in a Python dict built once). -/
def getField (r : RecordT) (k : PyStr) : Option PyStr := List.lookup k r

/-! ## HTTP and run model -/

/-- Outcome of one `requests.get` + `raise_for_status`: either some
`requests.exceptions.RequestException` (connection error, timeout, or an
HTTP error status), or a successfully delivered body. -/
inductive HTTPResult (α : Type) where
  | transportError
  | ok (body : α)
  deriving DecidableEq

/-- The `esearchresult` JSON object: an optional `idlist` field. -/
structure SearchResult where
  idlist : Option (List PyStr)
  deriving DecidableEq

/-- The parsed search JSON: an optional `esearchresult` field. -/
structure SearchResponse where
  esearchresult : Option SearchResult
  deriving DecidableEq

/-- The network environment of one run: the search response, and the
per-identifier detail response.  A detail body is `some doc` when the
response text is well-formed XML parsing to `doc`, and `none` when
`ET.fromstring` would raise a parse error on it. -/
structure Env where
  searchResult : HTTPResult SearchResponse
  detailResult : PyStr → HTTPResult (Option Doc)

/-- The errors that can escape a run: `ET.fromstring` raising on a
malformed detail payload (source line 59, outside the try block), and
`csv.DictWriter` raising `ValueError` on a row dict holding a key outside
the fieldnames (its default `extrasaction` is `raise`). -/
inductive PyError where
  | xmlParseError (pubmed_id : PyStr)
  | valueError
  deriving DecidableEq

/-- Source `fetch_paper_details` (lines 42-77): transport/HTTP failure is
caught and yields `None`; a delivered but malformed XML body raises
(uncaught); otherwise the record dict is built. -/
def fetch_paper_details (env : Env) (pubmed_id : PyStr) :
    Except PyError (Option RecordT) :=
  match env.detailResult pubmed_id with
  | .transportError => .ok none
  | .ok none => .error (.xmlParseError pubmed_id)
  | .ok (some d) => .ok (some (buildRecord pubmed_id d))

/-- The identifier list extracted at source line 29:
`search_results.get("esearchresult", {}).get("idlist", [])`, empty when the
search request failed. -/
def searchIds (env : Env) : List PyStr :=
  match env.searchResult with
  | .transportError => []
  | .ok resp => ((resp.esearchresult.getD ⟨none⟩).idlist.getD [])

/-- The fetch loop of `fetch_pubmed_papers` (lines 33-38): successful
details are appended in identifier order, `None` results are skipped, and
an uncaught exception aborts the loop. -/
def fetchLoop (env : Env) : List PyStr → Except PyError (List RecordT)
  | [] => .ok []
  | pid :: rest =>
    match fetch_paper_details env pid with
    | .error e => .error e
    | .ok none => fetchLoop env rest
    | .ok (some r) =>
      match fetchLoop env rest with
      | .error e => .error e
      | .ok papers => .ok (r :: papers)

/-- Source `fetch_pubmed_papers` (lines 10-40): a failed search request is
caught and yields `[]`; otherwise the extracted identifiers are fetched in
order. -/
def fetch_pubmed_papers (env : Env) : Except PyError (List RecordT) :=
  match env.searchResult with
  | .transportError => .ok []
  | .ok _ => fetchLoop env (searchIds env)

/-! ## CSV export (`save_to_csv`, lines 122-138) and entry point -/

/-- The fixed `fieldnames` list handed to `csv.DictWriter` (line 134). -/
def csv_fieldnames : List PyStr :=
  [kPubmedID, kTitle, kPubDate, kAuthors, kCompanies, kEmail]

/-- Observable outcome of `save_to_csv`: the early-return warning (no
file touched); a complete write of the header row followed by one row per
record; or `DictWriter` raising `ValueError` on a row with a key outside
the fieldnames, the file left holding whatever was written before the
raise. -/
inductive CsvOutcome where
  | warned
  | wrote (filename : PyStr) (rows : List (List PyStr))
  | raisedValueError (filename : PyStr) (rowsWritten : List (List PyStr))
  deriving DecidableEq

/-- One data row as `DictWriter` renders it: the record's value for each
fieldname, in fieldname order (an absent key would render as the empty
restval). -/
def csvRow (r : RecordT) : List PyStr :=
  csv_fieldnames.map fun f => (getField r f).getD []

/-- The extra-key check `DictWriter` performs per row: it raises
`ValueError` when the dict holds a key outside `fieldnames`. -/
def rowWriteOk (r : RecordT) : Bool :=
  r.all fun kv => csv_fieldnames.contains kv.1

/-- The `writer.writerows(papers)` loop: each row passes the extra-key
check and is rendered, until a row fails it — then `ValueError` is raised
and the rows rendered before it (the error payload) are what reached the
file. -/
def writeRows : List RecordT → Except (List (List PyStr)) (List (List PyStr))
  | [] => .ok []
  | r :: rest =>
    if rowWriteOk r then
      match writeRows rest with
      | .ok rows => .ok (csvRow r :: rows)
      | .error written => .error (csvRow r :: written)
    else .error []

/-- Source `save_to_csv` (lines 122-138): early return on no data,
otherwise `writeheader()` then `writerows(papers)`, which raises
`ValueError` on a row holding a key outside the fieldnames. -/
def save_to_csv (papers : List RecordT) (filename : PyStr) : CsvOutcome :=
  if papers = [] then .warned
  else
    match writeRows papers with
    | .ok rows => .wrote filename (csv_fieldnames :: rows)
    | .error written => .raisedValueError filename (csv_fieldnames :: written)

/-- What `main` leaves behind after the fetch: a saved file (or warning)
when `-f` was given, otherwise the records printed to the console. -/
inductive MainOutput where
  | saved (out : CsvOutcome)
  | printed (papers : List RecordT)
  deriving DecidableEq

/-- Source `main` (lines 140-158): fetch, then save or print.  An
exception escaping the fetch or the CSV writer escapes `main`
unhandled. -/
def main (env : Env) (file : Option PyStr) : Except PyError MainOutput :=
  match fetch_pubmed_papers env with
  | .error e => .error e
  | .ok papers =>
    match file with
    | some fn =>
      match save_to_csv papers fn with
      | .raisedValueError _ _ => .error .valueError
      | out => .ok (.saved out)
    | none => .ok (.printed papers)

/-- The process exit code: 0 on a normal return from `main`, 1 when an
unhandled exception reaches the interpreter's top level. -/
def exitCode (env : Env) (file : Option PyStr) : Nat :=
  match main env file with
  | .ok _ => 0
  | .error _ => 1

/-! ## Helper lemmas -/

/-- The per-author decision of the extraction loop, as an optional
(name, affiliation) pair: present exactly when the composed name and the
stripped affiliation are non-empty and the affiliation fails the academic
test. -/
def entryOf (a : Author) : Option (PyStr × PyStr) :=
  if composeName a ≠ [] ∧ strippedAff a ≠ [] ∧ is_company (strippedAff a) = true
  then some (composeName a, strippedAff a) else none

theorem extractList_eq_filterMap (l : List Author) :
    extractList l =
      ((l.filterMap entryOf).map Prod.fst, (l.filterMap entryOf).map Prod.snd) := by
  induction l with
  | nil => rfl
  | cons a rest ih =>
    by_cases h : composeName a ≠ [] ∧ strippedAff a ≠ [] ∧
        is_company (strippedAff a) = true
    · simp [extractList, entryOf, h, List.filterMap_cons, ih]
    · simp [extractList, entryOf, h, List.filterMap_cons, ih]

theorem zip_map_fst_map_snd {α β : Type} : ∀ l : List (α × β),
    (l.map Prod.fst).zip (l.map Prod.snd) = l
  | [] => rfl
  | p :: rest => by simp [zip_map_fst_map_snd rest]

theorem extract_lengths_eq (d : Doc) :
    (extract_authors_affiliations d).1.length =
      (extract_authors_affiliations d).2.length := by
  rw [extract_authors_affiliations, extractList_eq_filterMap]
  simp

/-! ## Claim C1 -/

/-- C1: `is_company` classifies an affiliation as academic (returns
`false`, author excluded) iff the string contains, case-insensitively, at
least one of the seven substrings "University", "Institute", "College",
"School", "Hospital", "Academy", "Center"; otherwise (the other value of
the Boolean) it is classified company, regardless of surrounding text. -/
theorem c1_is_company_classification (aff : PyStr) :
    is_company aff = false ↔
      (containsCI aff "University".toList ∨ containsCI aff "Institute".toList ∨
       containsCI aff "College".toList ∨ containsCI aff "School".toList ∨
       containsCI aff "Hospital".toList ∨ containsCI aff "Academy".toList ∨
       containsCI aff "Center".toList) := by
  simp only [is_company, academic_keywords, Bool.not_eq_false', List.any_cons,
    List.any_nil, Bool.or_false, Bool.or_eq_true, isSubstring_iff, containsCI]

/-! ## Claim C3 -/

/-- C3: the display name is the first-name and last-name fields trimmed
and space-joined with empty parts omitted, and an author is kept by the
extraction loop iff the composed name is non-empty, the stripped
affiliation is non-empty, and the affiliation fails the academic test. -/
theorem c3_author_name_and_inclusion (a : Author) (rest : List Author) :
    composeName a = composeNameSpec a ∧
    extractList (a :: rest) =
      (if composeNameSpec a ≠ [] ∧ strippedAff a ≠ [] ∧
          is_company (strippedAff a) = true
       then (composeNameSpec a :: (extractList rest).1,
             strippedAff a :: (extractList rest).2)
       else extractList rest) := by
  refine ⟨composeName_eq_spec a, ?_⟩
  simp only [extractList, composeName_eq_spec]

/-! ## Claim C4 -/

/-- C4: the two sequences returned by `extract_authors_affiliations` are
equal in length, and zipping them gives exactly the (name, affiliation)
pair of each kept author, in document encounter order — so the i-th
affiliation belongs to the i-th named author. -/
theorem c4_lists_index_aligned (d : Doc) :
    (extract_authors_affiliations d).1.length =
      (extract_authors_affiliations d).2.length ∧
    (extract_authors_affiliations d).1.zip (extract_authors_affiliations d).2 =
      d.authors.filterMap entryOf := by
  refine ⟨extract_lengths_eq d, ?_⟩
  rw [extract_authors_affiliations, extractList_eq_filterMap]
  exact zip_map_fst_map_snd _

/-! ## Field lookups on a built record -/

theorem getField_pubmedID (pid : PyStr) (d : Doc) :
    getField (buildRecord pid d) kPubmedID = some pid := rfl

theorem getField_title (pid : PyStr) (d : Doc) :
    getField (buildRecord pid d) kTitle = some (d.articleTitle.getD nNA) := rfl

theorem getField_pubdate (pid : PyStr) (d : Doc) :
    getField (buildRecord pid d) kPubDate = some (d.pubDateYear.getD nNA) := rfl

theorem getField_authors (pid : PyStr) (d : Doc) :
    getField (buildRecord pid d) kAuthors =
      some (if (extract_authors_affiliations d).1 ≠ [] then
              List.intercalate commaSpace (extract_authors_affiliations d).1
            else nNA) := rfl

theorem getField_companies (pid : PyStr) (d : Doc) :
    getField (buildRecord pid d) kCompanies =
      some (if (extract_authors_affiliations d).2 ≠ [] then
              List.intercalate commaSpace (extract_authors_affiliations d).2
            else nNA) := rfl

theorem getField_email (pid : PyStr) (d : Doc) :
    getField (buildRecord pid d) kEmail =
      some (pyOrStr (extract_corresponding_email d) nNA) := rfl

/-! ## Claim C5 -/

/-- C5: a missing title or publication year renders as "N/A"; when the
non-academic author list is empty both the authors and companies fields
render as exactly "N/A", otherwise each is the comma-and-space-join of its
list in extraction order; a missing corresponding email renders as
"N/A". -/
theorem c5_missing_fields_render_na (pid : PyStr) (d : Doc) :
    (d.articleTitle = none → getField (buildRecord pid d) kTitle = some nNA) ∧
    (d.pubDateYear = none → getField (buildRecord pid d) kPubDate = some nNA) ∧
    ((extract_authors_affiliations d).1 = [] →
       getField (buildRecord pid d) kAuthors = some nNA ∧
       getField (buildRecord pid d) kCompanies = some nNA) ∧
    ((extract_authors_affiliations d).1 ≠ [] →
       getField (buildRecord pid d) kAuthors =
         some (List.intercalate commaSpace (extract_authors_affiliations d).1) ∧
       getField (buildRecord pid d) kCompanies =
         some (List.intercalate commaSpace (extract_authors_affiliations d).2)) ∧
    (extract_corresponding_email d = none →
       getField (buildRecord pid d) kEmail = some nNA) := by
  have hlen := extract_lengths_eq d
  refine ⟨?_, ?_, ?_, ?_, ?_⟩
  · intro h; rw [getField_title, h]; rfl
  · intro h; rw [getField_pubdate, h]; rfl
  · intro h
    have h2 : (extract_authors_affiliations d).2 = [] := by
      rw [← List.length_eq_zero, ← hlen, h]; rfl
    rw [getField_authors, getField_companies, h, h2]
    exact ⟨rfl, rfl⟩
  · intro h
    have h2 : (extract_authors_affiliations d).2 ≠ [] := by
      rw [← List.length_pos_iff_ne_nil, ← hlen, List.length_pos_iff_ne_nil]
      exact h
    rw [getField_authors, getField_companies, if_pos h, if_pos h2]
    exact ⟨rfl, rfl⟩
  · intro h; rw [getField_email, h]; rfl

/-- A document with every looked-up path absent. -/
def docEmpty : Doc := ⟨none, none, [], []⟩

/-- A document with one company-affiliated author and an email. -/
def docAcme : Doc :=
  ⟨some "Sample".toList, some "2020".toList,
   [⟨some "Jane".toList, some "Doe".toList, some "Acme Biotech Inc.".toList⟩],
   [some "jane@acme.com".toList]⟩

/-- Concrete instantiation of `c5_missing_fields_render_na`: the
all-missing document exercises the "N/A" branches, a document with one
company author exercises the join branch. -/
theorem c5_witness :
    (getField (buildRecord "1".toList docEmpty) kTitle = some nNA ∧
     getField (buildRecord "1".toList docEmpty) kPubDate = some nNA ∧
     getField (buildRecord "1".toList docEmpty) kAuthors = some nNA ∧
     getField (buildRecord "1".toList docEmpty) kCompanies = some nNA ∧
     getField (buildRecord "1".toList docEmpty) kEmail = some nNA) ∧
    (getField (buildRecord "2".toList docAcme) kAuthors =
       some (List.intercalate commaSpace (extract_authors_affiliations docAcme).1) ∧
     getField (buildRecord "2".toList docAcme) kCompanies =
       some (List.intercalate commaSpace (extract_authors_affiliations docAcme).2)) := by
  have h1 := c5_missing_fields_render_na "1".toList docEmpty
  have h2 := c5_missing_fields_render_na "2".toList docAcme
  have he : (extract_authors_affiliations docEmpty).1 = [] := by decide
  have ha : (extract_authors_affiliations docAcme).1 ≠ [] := by decide
  exact ⟨⟨h1.1 rfl, h1.2.1 rfl, (h1.2.2.1 he).1, (h1.2.2.1 he).2, h1.2.2.2.2 rfl⟩,
    h2.2.2.2.1 ha⟩

/-! ## Fetch-loop helpers -/

/-- The per-identifier outcome the loop keeps: `some r` when the detail
fetch returned a record, `none` when it returned `None` (skipped). -/
def detailOpt (env : Env) (pid : PyStr) : Option RecordT :=
  match fetch_paper_details env pid with
  | .ok (some r) => some r
  | _ => none

theorem fetchLoop_ok_filterMap (env : Env) :
    ∀ ids papers, fetchLoop env ids = .ok papers →
      papers = ids.filterMap (detailOpt env) := by
  intro ids
  induction ids with
  | nil =>
    intro papers h
    simp only [fetchLoop] at h
    cases h
    rfl
  | cons pid rest ih =>
    intro papers h
    cases hfd : fetch_paper_details env pid with
    | error e => rw [fetchLoop, hfd] at h; cases h
    | ok o =>
      cases o with
      | none =>
        rw [fetchLoop, hfd] at h
        rw [List.filterMap_cons, show detailOpt env pid = none by
          rw [detailOpt, hfd]]
        exact ih papers h
      | some r =>
        rw [fetchLoop, hfd] at h
        cases hrec : fetchLoop env rest with
        | error e => rw [hrec] at h; cases h
        | ok ps =>
          rw [hrec] at h
          cases h
          rw [List.filterMap_cons, show detailOpt env pid = some r by
            rw [detailOpt, hfd]]
          rw [ih ps hrec]

theorem filterMap_length_lt {α β : Type} (f : α → Option β) :
    ∀ (l : List α) (x : α), x ∈ l → f x = none →
      (l.filterMap f).length < l.length := by
  intro l
  induction l with
  | nil => intro x hx; cases hx
  | cons a rest ih =>
    intro x hx hfx
    rcases List.mem_cons.mp hx with rfl | hmem
    · rw [List.filterMap_cons, hfx]
      exact Nat.lt_succ_of_le (List.length_filterMap_le f rest)
    · rw [List.filterMap_cons]
      cases hfa : f a with
      | none => exact Nat.lt_succ_of_lt (ih x hmem hfx)
      | some b => simpa using Nat.succ_lt_succ (ih x hmem hfx)

theorem fetch_paper_details_ok_some (env : Env) (pid : PyStr) (p : RecordT)
    (h : fetch_paper_details env pid = .ok (some p)) :
    ∃ d, env.detailResult pid = .ok (some d) ∧ p = buildRecord pid d := by
  rw [fetch_paper_details] at h
  cases hd : env.detailResult pid with
  | transportError => rw [hd] at h; simp at h
  | ok o =>
    cases o with
    | none => rw [hd] at h; simp at h
    | some d =>
      rw [hd] at h
      simp only [Except.ok.injEq, Option.some.injEq] at h
      exact ⟨d, rfl, h.symm⟩

/-! ## Claim C6 -/

/-- C6: a transport or HTTP-status failure on the per-identifier fetch
makes `fetch_paper_details` return the `None` sentinel instead of raising;
the returned paper list is never longer than the identifier list and is
strictly shorter when such a failure occurs for an identifier in it. -/
theorem c6_detail_failure_skipped (env : Env) (pid : PyStr) :
    (env.detailResult pid = .transportError →
       fetch_paper_details env pid = .ok none) ∧
    (∀ papers, fetch_pubmed_papers env = .ok papers →
       papers.length ≤ (searchIds env).length ∧
       (env.detailResult pid = .transportError → pid ∈ searchIds env →
          papers.length < (searchIds env).length)) := by
  constructor
  · intro h
    rw [fetch_paper_details, h]
  · intro papers h
    cases henv : env.searchResult with
    | transportError =>
      rw [fetch_pubmed_papers, henv] at h
      cases h
      refine ⟨by simp, ?_⟩
      intro _ hmem
      rw [searchIds, henv] at hmem
      cases hmem
    | ok resp =>
      rw [fetch_pubmed_papers, henv] at h
      have hpf := fetchLoop_ok_filterMap env _ _ h
      subst hpf
      refine ⟨List.length_filterMap_le _ _, ?_⟩
      intro htr hmem
      refine filterMap_length_lt _ _ pid hmem ?_
      rw [detailOpt, fetch_paper_details, htr]

/-- Environment in which the search yields one identifier and every
detail fetch fails at transport level. -/
def env6 : Env :=
  ⟨.ok ⟨some ⟨some ["1".toList]⟩⟩, fun _ => .transportError⟩

/-- Concrete instantiation of `c6_detail_failure_skipped` on `env6`. -/
theorem c6_witness :
    fetch_paper_details env6 "1".toList = .ok none ∧
    ([] : List RecordT).length ≤ (searchIds env6).length ∧
    ([] : List RecordT).length < (searchIds env6).length := by
  have h := c6_detail_failure_skipped env6 "1".toList
  have hrun : fetch_pubmed_papers env6 = .ok [] := rfl
  exact ⟨h.1 rfl, (h.2 [] hrun).1, (h.2 [] hrun).2 rfl (by decide)⟩

/-! ## Claim C7 -/

/-- C7: a transport or HTTP-status failure on the search request makes
`fetch_pubmed_papers` return the empty list without any exception, and on
a successful search whose expected identifier field path is absent the
identifier list defaults to empty (and the run returns the empty list). -/
theorem c7_search_failure_empty (env : Env) :
    (env.searchResult = .transportError → fetch_pubmed_papers env = .ok []) ∧
    (∀ resp, env.searchResult = .ok resp →
       (resp.esearchresult = none ∨
        ∃ r, resp.esearchresult = some r ∧ r.idlist = none) →
       searchIds env = [] ∧ fetch_pubmed_papers env = .ok []) := by
  constructor
  · intro h
    rw [fetch_pubmed_papers, h]
  · intro resp hresp hmiss
    have hids : searchIds env = [] := by
      rw [searchIds, hresp]
      rcases hmiss with hnone | ⟨r, hr, hrid⟩
      · simp [hnone]
      · simp [hr, hrid]
    refine ⟨hids, ?_⟩
    rw [fetch_pubmed_papers, hresp, hids]
    rfl

/-- Environment whose search request fails at transport level. -/
def env7a : Env := ⟨.transportError, fun _ => .transportError⟩

/-- Environment whose search succeeds but carries no `esearchresult`. -/
def env7b : Env := ⟨.ok ⟨none⟩, fun _ => .transportError⟩

/-- Concrete instantiation of `c7_search_failure_empty` on both a failing
search and a successful search missing the identifier field path. -/
theorem c7_witness :
    fetch_pubmed_papers env7a = .ok [] ∧
    (searchIds env7b = [] ∧ fetch_pubmed_papers env7b = .ok []) :=
  ⟨(c7_search_failure_empty env7a).1 rfl,
   (c7_search_failure_empty env7b).2 ⟨none⟩ rfl (Or.inl rfl)⟩

/-! ## Claim C10 -/

/-- C10: a successful run returns exactly the successful per-identifier
fetch results, in identifier order, failed identifiers omitted, and every
returned paper's "PubmedID" field equals the identifier it was fetched
for. -/
theorem c10_order_preserved (env : Env) (papers : List RecordT)
    (h : fetch_pubmed_papers env = .ok papers) :
    papers = (searchIds env).filterMap (detailOpt env) ∧
    ∀ p ∈ papers, ∃ pid, pid ∈ searchIds env ∧
      fetch_paper_details env pid = .ok (some p) ∧
      getField p kPubmedID = some pid := by
  have hpf : papers = (searchIds env).filterMap (detailOpt env) := by
    cases henv : env.searchResult with
    | transportError =>
      rw [fetch_pubmed_papers, henv] at h
      cases h
      rw [searchIds, henv]
      rfl
    | ok resp =>
      rw [fetch_pubmed_papers, henv] at h
      exact fetchLoop_ok_filterMap env _ _ h
  refine ⟨hpf, ?_⟩
  intro p hp
  rw [hpf] at hp
  obtain ⟨pid, hpid, hdo⟩ := List.mem_filterMap.mp hp
  have hfd : fetch_paper_details env pid = .ok (some p) := by
    rw [detailOpt] at hdo
    cases hfd : fetch_paper_details env pid with
    | error e => rw [hfd] at hdo; cases hdo
    | ok o =>
      cases o with
      | none => rw [hfd] at hdo; cases hdo
      | some r => rw [hfd] at hdo; cases hdo; rfl
  obtain ⟨d, _, hpd⟩ := fetch_paper_details_ok_some env pid p hfd
  exact ⟨pid, hpid, hfd, by rw [hpd]; exact getField_pubmedID pid d⟩

/-- Environment for the end-to-end scenario: search returns identifiers
"111" and "222"; the detail fetch for "111" succeeds with one
company-affiliated author, the one for "222" fails at transport level. -/
def env10 : Env :=
  ⟨.ok ⟨some ⟨some ["111".toList, "222".toList]⟩⟩,
   fun pid => if pid = "111".toList then .ok (some docAcme) else .transportError⟩

/-- Concrete instantiation of `c10_order_preserved` on `env10`: the run
keeps exactly the record fetched for "111". -/
theorem c10_witness :
    [buildRecord "111".toList docAcme] =
      (searchIds env10).filterMap (detailOpt env10) ∧
    ∀ p ∈ [buildRecord "111".toList docAcme], ∃ pid, pid ∈ searchIds env10 ∧
      fetch_paper_details env10 pid = .ok (some p) ∧
      getField p kPubmedID = some pid :=
  c10_order_preserved env10 [buildRecord "111".toList docAcme] rfl

/-! ## Claim C2 -/

/-- Environment in which the search succeeds with one identifier and the
detail request is delivered (HTTP 200) but its body is not well-formed
XML, so `ET.fromstring` — which sits outside the try block at source
line 59 — raises. -/
def envBad : Env := ⟨.ok ⟨some ⟨some ["1".toList]⟩⟩, fun _ => .ok none⟩

/-- C2 fails on the code: on `envBad` the uncaught XML parse error
propagates through `fetch_paper_details` and `fetch_pubmed_papers` to the
entry point, and the process exit code is 1, not 0. -/
theorem c2_parse_error_reaches_main :
    main envBad none = .error (.xmlParseError "1".toList) ∧
    exitCode envBad none = 1 := ⟨rfl, rfl⟩

/-! ## Claim C8 -/

theorem writeRows_ok (papers : List RecordT)
    (h : ∀ r ∈ papers, rowWriteOk r = true) :
    writeRows papers = .ok (papers.map csvRow) := by
  induction papers with
  | nil => rfl
  | cons r rest ih =>
    rw [writeRows, if_pos (h r (List.mem_cons_self r rest)),
      ih fun x hx => h x (List.mem_cons_of_mem r hx)]
    rfl

/-- A row dict whose single key lies outside the six CSV fieldnames. -/
def badCsvRow : RecordT := [("Extra".toList, [])]

/-- C8 as stated fails on the code: `csv.DictWriter` is constructed with
the default `extrasaction` of raising, so on the non-empty row sequence
`[badCsvRow]` the writer raises `ValueError` after the header instead of
writing one line per row. -/
theorem c8_counterexample :
    save_to_csv [badCsvRow] "out.csv".toList =
      .raisedValueError "out.csv".toList [csv_fieldnames] ∧
    save_to_csv [badCsvRow] "out.csv".toList ≠
      .wrote "out.csv".toList (csv_fieldnames :: [badCsvRow].map csvRow) := by
  constructor
  · rfl
  · decide

/-- C8 (amended): exporting an empty row sequence writes no file and
surfaces the warning; a non-empty row sequence all of whose rows have
keys only among the six fixed column names writes the header row of the
six fixed column names followed by one line per row. -/
theorem c8_save_to_csv (filename : PyStr) (papers : List RecordT) :
    (papers = [] → save_to_csv papers filename = .warned) ∧
    (papers ≠ [] → (∀ r ∈ papers, rowWriteOk r = true) →
       save_to_csv papers filename =
         .wrote filename (csv_fieldnames :: papers.map csvRow) ∧
       (csv_fieldnames :: papers.map csvRow).head? = some csv_fieldnames ∧
       (csv_fieldnames :: papers.map csvRow).length = papers.length + 1) := by
  constructor
  · intro h
    rw [save_to_csv, if_pos h]
  · intro h hok
    refine ⟨?_, rfl, by simp⟩
    rw [save_to_csv, if_neg h, writeRows_ok papers hok]

/-- Concrete instantiation of `c8_save_to_csv` on the empty list and on a
one-record list built by `fetch_paper_details`. -/
theorem c8_witness :
    save_to_csv [] "out.csv".toList = .warned ∧
    save_to_csv [buildRecord "1".toList docEmpty] "out.csv".toList =
      .wrote "out.csv".toList
        (csv_fieldnames :: [buildRecord "1".toList docEmpty].map csvRow) ∧
    (csv_fieldnames :: [buildRecord "1".toList docEmpty].map csvRow).length =
      [buildRecord "1".toList docEmpty].length + 1 := by
  have h1 := (c8_save_to_csv "out.csv".toList []).1 rfl
  have h2 := (c8_save_to_csv "out.csv".toList
    [buildRecord "1".toList docEmpty]).2 (by simp) (by decide)
  exact ⟨h1, h2.1, h2.2.2⟩

/-! ## Claim C9 -/

/-- C9: every record built by `fetch_paper_details` has exactly the six
keys of the CSV fieldnames, in order; `DictWriter`'s extra-key check
passes on it, and every fieldname resolves to a value, so writing any
list of such records fails on no missing or extra field. -/
theorem c9_record_keys_match_csv (pid : PyStr) (d : Doc) :
    (buildRecord pid d).map Prod.fst = csv_fieldnames ∧
    rowWriteOk (buildRecord pid d) = true ∧
    (getField (buildRecord pid d) kPubmedID).isSome = true ∧
    (getField (buildRecord pid d) kTitle).isSome = true ∧
    (getField (buildRecord pid d) kPubDate).isSome = true ∧
    (getField (buildRecord pid d) kAuthors).isSome = true ∧
    (getField (buildRecord pid d) kCompanies).isSome = true ∧
    (getField (buildRecord pid d) kEmail).isSome = true :=
  ⟨rfl, rfl, rfl, rfl, rfl, rfl, rfl, rfl⟩

end PapersFetcher
